import Mathlib

/-!
Shallow embedding of the code-version management and rejit core
(src/vm/codeversion.{h,cpp}, src/vm/rejit.cpp, src/vm/tieredcompilation.cpp).

Machine pointers (Module*, MethodDesc*, PCODE addresses) are modelled as
naturals, with 0 standing for NULL where the source tests a pointer against
NULL.  Bytes of machine code are naturals (only ever copied, never computed
with).  Linked records reached through pointers are modelled as arenas
(lists) of records addressed by stable integer ids or indices.  Allocation
sites that can fail with E_OUTOFMEMORY take an explicit Bool saying whether
the allocation succeeds.  The debugger's breakpoint shadow buffers are not
modelled: the debugger patch table appears only as the list of patched
addresses consulted by the contention checks, and theorems that exercise a
byte-write path take an empty patch table.
-/

/-- HRESULT values that appear in the modelled source files. -/
inductive HR where
  | sOk
  | sFalse
  | eOutOfMemory
  | eNotImpl
  | eInvalidArg
  | eUnexpected
  | corprofESuspendRequired
  | corprofEDataIncomplete
  | corprofEModuleIsDynamic
  | corprofERejitRequestNotFound
  | corprofEFunctionIsCollectible
  | win32Error (code : Nat)
  deriving DecidableEq

/-- The FAILED macro: true for every HRESULT with the severity bit set.
Among the modelled values only S_OK and S_FALSE are success codes. -/
def HR.failed : HR → Bool
  | .sOk => false
  | .sFalse => false
  | _ => true

/-- X86_INSTR_JMP_REL32, the opcode written over the method entry point. -/
def jmpRel32 : Nat := 0xE9

/-- MethodDescVersioningState::JumpStubSize on x86/amd64. -/
def JumpStubSize : Nat := 5

/-- MethodDescVersioningState::JumpStampFlags. -/
inductive JumpStampFlags where
  | jumpStampNone
  | jumpStampToPrestub
  | jumpStampToActiveVersion
  deriving DecidableEq

/-- NativeCodeVersion::OptimizationTier. -/
inductive OptimizationTier where
  | tier0
  | tier1
  deriving DecidableEq

/-- ILCodeVersion::RejitFlags.  The header in this revision declares only the
first three states; rejit.cpp additionally refers to kStateReverted, which
is kept here because the rejit coordinator matches on it. -/
inductive RejitState where
  | kStateRequested
  | kStateGettingReJITParameters
  | kStateActive
  | kStateReverted
  deriving DecidableEq

/-- NativeCodeVersionNode: one explicit native code record of a method.
The m_pNextMethodDescSibling link is represented by membership in the owning
state's node list; IsActiveChildFlag from m_flags is the Bool field. -/
structure NativeCodeVersionNode where
  id : Nat
  parentId : Nat
  nativeCode : Option Nat
  optTier : OptimizationTier
  isActiveChild : Bool
  deriving DecidableEq

/-- MethodDescVersioningState: per-method versioning state.  m_flags is split
into its IsDefaultVersionActiveChildFlag bit and the jump-stamp state bits;
m_pFirstVersionNode's list is `nodes` with the head the most recently
linked node. -/
structure MethodDescVersioningState where
  nextId : Nat
  isDefaultVersionActiveChild : Bool
  jumpStampState : JumpStampFlags
  savedCode : List Nat
  nodes : List NativeCodeVersionNode
  deriving DecidableEq

/-- The MethodDescVersioningState constructor: m_nextId = 1, the
IsDefaultVersionActiveChildFlag set, no jump stamp, m_rgSavedCode zeroed. -/
def mdvsNew : MethodDescVersioningState :=
  { nextId := 1
    isDefaultVersionActiveChild := true
    jumpStampState := .jumpStampNone
    savedCode := List.replicate JumpStubSize 0
    nodes := [] }

/-- Writes the first k bytes of newValue over the start of mem (the per-byte
store loop of UpdateJumpStampHelper, which writes JumpStubSize bytes). -/
def writeBytes (k : Nat) (newValue mem : List Nat) : List Nat :=
  newValue.take k ++ mem.drop k

/-- MethodDescVersioningState::UpdateJumpStampHelper.  pbCode is the code
address, mem the 8-byte window at that address, i64NewValue the new 8-byte
word.  With contention possible the address must be 8-byte aligned and no
debugger patch may cover the jump-stub range, else the distinguished
CORPROF_E_RUNTIME_SUSPEND_REQUIRED value is returned with memory untouched;
protectOk models ClrVirtualProtect succeeding.  The contended path swaps the
full 8-byte word by interlocked compare-exchange; the uncontended path
stores JumpStubSize bytes one at a time. -/
def updateJumpStampHelper (pbCode : Nat) (mem i64NewValue : List Nat)
    (fContentionPossible : Bool) (patchTable : List Nat) (protectOk : Bool) :
    HR × List Nat :=
  if fContentionPossible ∧ pbCode % 8 ≠ 0 then
    (.corprofESuspendRequired, mem)
  else if fContentionPossible ∧
      ((List.range JumpStubSize).any fun i => patchTable.contains (pbCode + i)) then
    (.corprofESuspendRequired, mem)
  else if ¬ protectOk then
    (.win32Error 998, mem)
  else if fContentionPossible then
    (.sOk, i64NewValue)
  else
    (.sOk, writeBytes JumpStubSize i64NewValue mem)

/-- MethodDescVersioningState::JumpStampNativeCode.  If the method is already
stamped to the prestub a racing thread finished the work (returns S_OK
without touching anything).  Otherwise the JumpStubSize bytes about to be
overwritten are copied into m_rgSavedCode first, then the new 8-byte word
(jmp rel32 opcode followed by the 4 offset bytes, upper bytes unchanged) is
written through UpdateJumpStampHelper with no contention possible.  allocOk
models Precode::Allocate / rel32UsingJumpStub succeeding; on failure the
saved bytes remain written but the state stays unstamped. -/
def jumpStampNativeCode (vs : MethodDescVersioningState) (pbCode : Nat)
    (mem offset4 : List Nat) (allocOk : Bool) (patchTable : List Nat)
    (protectOk : Bool) : HR × MethodDescVersioningState × List Nat :=
  if vs.jumpStampState = .jumpStampToPrestub then
    (.sOk, vs, mem)
  else
    let vs1 := { vs with savedCode := mem.take JumpStubSize }
    if ¬ allocOk then
      (.eOutOfMemory, vs1, mem)
    else
      let i64NewCode := jmpRel32 :: (offset4 ++ (mem.drop JumpStubSize).take 3)
      let r := updateJumpStampHelper pbCode mem i64NewCode false patchTable protectOk
      if r.1.failed then
        (r.1, vs1, r.2)
      else
        (.sOk, { vs1 with jumpStampState := .jumpStampToPrestub }, r.2)

/-- MethodDescVersioningState::UndoJumpStampNativeCode.  The new 8-byte word
is the current word with its first JumpStubSize bytes replaced by
m_rgSavedCode; it is written through UpdateJumpStampHelper with contention
possible exactly when the EE is not suspended.  On S_OK the jump-stamp
state returns to JumpStampNone; m_rgSavedCode itself is not cleared. -/
def undoJumpStampNativeCode (vs : MethodDescVersioningState) (pbCode : Nat)
    (mem : List Nat) (fEESuspended : Bool) (patchTable : List Nat)
    (protectOk : Bool) : HR × MethodDescVersioningState × List Nat :=
  let i64NewValue := vs.savedCode ++ (mem.drop JumpStubSize).take 3
  let r := updateJumpStampHelper pbCode mem i64NewValue (!fEESuspended) patchTable protectOk
  if r.1 = .sOk then
    (.sOk, { vs with jumpStampState := .jumpStampNone }, r.2)
  else
    (r.1, vs, r.2)

/-- A NativeCodeVersion handle as used by callers: either the synthetic
default version of the method (StorageKind::Synthetic) or a pointer to an
explicit NativeCodeVersionNode, represented by the node's stable id. -/
inductive NativeCodeVersionRef where
  | syntheticRef
  | nodeRef (id : Nat)
  deriving DecidableEq

/-- The per-method slice of the CodeVersionManager's state: the (possibly
absent) MethodDescVersioningState for one MethodDesc. -/
structure MethodState where
  mdvs : Option MethodDescVersioningState
  deriving DecidableEq

/-- The view of an ILCodeVersion that the native-code-version iterator
observes through IsNull / IsDefaultVersion / GetVersionId. -/
inductive ILVerFilter where
  | nullFilter
  | defaultFilter
  | explicitFilter (rejitId : Nat)
  deriving DecidableEq

/-- ILCodeVersion::IsNull as seen by the iterator. -/
def ILVerFilter.isNull : ILVerFilter → Bool
  | .nullFilter => true
  | _ => false

/-- ILCodeVersion::IsDefaultVersion as seen by the iterator. -/
def ILVerFilter.isDefault : ILVerFilter → Bool
  | .defaultFilter => true
  | _ => false

/-- ILCodeVersion::GetVersionId: 0 for the synthetic default version. -/
def ILVerFilter.versionId : ILVerFilter → Nat
  | .explicitFilter r => r
  | _ => 0

/-- The linked-list stage of NativeCodeVersionIterator keeps a node exactly
when the filter is null or its version id equals the node's parent id. -/
def nodeMatches (filter : ILVerFilter) (n : NativeCodeVersionNode) : Bool :=
  filter.isNull || filter.versionId == n.parentId

/-- CodeVersionManager::GetMethodDescVersioningState followed by a walk of the
node list: looks a node up by its id (pointer dereference in the source). -/
def findNode (st : MethodState) (i : Nat) : Option NativeCodeVersionNode :=
  match st.mdvs with
  | none => none
  | some vs => vs.nodes.find? fun n => n.id == i

/-- The sequence produced by NativeCodeVersionIterator for one method and IL
filter: the implicit (synthetic) version when the filter is null or the
default version, followed by the linked-list nodes that match the filter. -/
def nativeCodeVersionList (st : MethodState) (filter : ILVerFilter) :
    List NativeCodeVersionRef :=
  (if filter.isNull || filter.isDefault then [NativeCodeVersionRef.syntheticRef] else []) ++
    (match st.mdvs with
     | none => []
     | some vs => (vs.nodes.filter (nodeMatches filter)).map fun n => .nodeRef n.id)

/-- NativeCodeVersion::IsActiveChildVersion: an explicit node reads its
IsActiveChildFlag; the synthetic version is active when the method has no
versioning state, else reads IsDefaultVersionActiveChild. -/
def isActiveChildVersion (st : MethodState) : NativeCodeVersionRef → Bool
  | .syntheticRef =>
    match st.mdvs with
    | none => true
    | some vs => vs.isDefaultVersionActiveChild
  | .nodeRef i =>
    match findNode st i with
    | some n => n.isActiveChild
    | none => false

/-- NativeCodeVersion::GetOptimizationTier: the synthetic version is always
OptimizationTier0. -/
def getOptimizationTier (st : MethodState) : NativeCodeVersionRef → OptimizationTier
  | .syntheticRef => .tier0
  | .nodeRef i =>
    match findNode st i with
    | some n => n.optTier
    | none => .tier0

/-- ILCodeVersion::GetActiveNativeCodeVersion: the first version in iteration
order whose IsActiveChildVersion is set, or null (none) if there is none. -/
def getActiveNativeCodeVersion (st : MethodState) (filter : ILVerFilter) :
    Option NativeCodeVersionRef :=
  (nativeCodeVersionList st filter).find? (isActiveChildVersion st)

/-- NativeCodeVersionNode::SetActiveChildFlag applied through a node pointer,
modelled as an update of the node with the given id. -/
def setActiveChildFlagById (nodes : List NativeCodeVersionNode) (i : Nat)
    (b : Bool) : List NativeCodeVersionNode :=
  nodes.map fun n => if n.id == i then { n with isActiveChild := b } else n

/-- NativeCodeVersionNode::SetOptimizationTier applied through a node pointer,
modelled as an update of the node with the given id. -/
def setOptimizationTierById (st : MethodState) (i : Nat)
    (t : OptimizationTier) : MethodState :=
  match st.mdvs with
  | none => st
  | some vs =>
    ⟨some { vs with nodes := vs.nodes.map fun n =>
        if n.id == i then { n with optTier := t } else n }⟩

/-- CodeVersionManager::GetOrCreateMethodDescVersioningState: a non-creating
lookup, or a fresh MethodDescVersioningState whose allocation can fail. -/
def getOrCreateMethodDescVersioningState (st : MethodState) (allocOk : Bool) :
    HR × Option MethodDescVersioningState :=
  match st.mdvs with
  | some vs => (.sOk, some vs)
  | none => if allocOk then (.sOk, some mdvsNew) else (.eOutOfMemory, none)

/-- The tail of CodeVersionManager::AddNativeCodeVersion once the versioning
state exists: AllocateVersionId increments m_nextId, the new node (tier 0,
no native code, inactive) is linked at the head, and if the IL version has
no active native child after linking, the new node's active-child flag is
set.  allocNodeOk models the node allocation. -/
def addNativeCodeVersionLinked (vs : MethodDescVersioningState)
    (ilVersion : ILVerFilter) (allocNodeOk : Bool) :
    HR × MethodState × Option NativeCodeVersionRef :=
  let newId := vs.nextId
  let vs1 := { vs with nextId := vs.nextId + 1 }
  if ¬ allocNodeOk then
    (.eOutOfMemory, ⟨some vs1⟩, none)
  else
    let node : NativeCodeVersionNode :=
      { id := newId, parentId := ilVersion.versionId, nativeCode := none
        optTier := .tier0, isActiveChild := false }
    let vs2 := { vs1 with nodes := node :: vs1.nodes }
    let st2 : MethodState := ⟨some vs2⟩
    if (getActiveNativeCodeVersion st2 ilVersion).isNone then
      (.sOk, ⟨some { vs2 with nodes := setActiveChildFlagById vs2.nodes newId true }⟩,
        some (.nodeRef newId))
    else
      (.sOk, st2, some (.nodeRef newId))

/-- CodeVersionManager::AddNativeCodeVersion. -/
def addNativeCodeVersion (st : MethodState) (ilVersion : ILVerFilter)
    (allocStateOk allocNodeOk : Bool) :
    HR × MethodState × Option NativeCodeVersionRef :=
  match getOrCreateMethodDescVersioningState st allocStateOk with
  | (hr, none) => (hr, st, none)
  | (_, some vs) => addNativeCodeVersionLinked vs ilVersion allocNodeOk

/-- The node AddNativeCodeVersion creates: given id, parent IL version id and
active-child flag, with tier 0 and no native code (proof abbreviation for
the literal in addNativeCodeVersionLinked). -/
def newNCVNode (i parent : Nat) (b : Bool) : NativeCodeVersionNode :=
  { id := i, parentId := parent, nativeCode := none, optTier := .tier0, isActiveChild := b }

/-- The versioning state right after AddNativeCodeVersion links its new node
(proof abbreviation). -/
def mdvsLinked (vs : MethodDescVersioningState) (ilv : ILVerFilter) (b : Bool) :
    MethodDescVersioningState :=
  { vs with nextId := vs.nextId + 1, nodes := newNCVNode vs.nextId ilv.versionId b :: vs.nodes }

/-- The node created by AsyncPromoteMethodToTier1 after SetOptimizationTier:
as newNCVNode but tagged OptimizationTier1 (proof abbreviation). -/
def tier1NCVNode (i parent : Nat) (b : Bool) : NativeCodeVersionNode :=
  { id := i, parentId := parent, nativeCode := none, optTier := .tier1, isActiveChild := b }

/-- The versioning state after AsyncPromoteMethodToTier1 links and retags its
new node (proof abbreviation). -/
def mdvsPromoted (vs : MethodDescVersioningState) (ilv : ILVerFilter) (b : Bool) :
    MethodDescVersioningState :=
  { vs with nextId := vs.nextId + 1, nodes := tier1NCVNode vs.nextId ilv.versionId b :: vs.nodes }

/-- Arena discipline of the node list: every node id was handed out by the
AllocateVersionId counter, so all ids are below m_nextId (and hence fresh
ids are unique). -/
def MethodStateWf (st : MethodState) : Prop :=
  ∀ vs, st.mdvs = some vs → ∀ n ∈ vs.nodes, n.id < vs.nextId

/-- ILCodeVersionNode: one explicit IL version record for a (module, token)
pair.  The constructor used by AddILCodeVersion sets kStateRequested, a null
IL body and zero jit flags. -/
structure ILCodeVersionNodeM where
  rejitId : Nat
  rejitState : RejitState
  pIL : Option Nat
  jitFlags : Nat
  deriving DecidableEq

/-- An ILCodeVersion handle: StorageKind::Unknown (null), Synthetic (the
default version of a (module, token) pair), or Explicit, represented by the
index of the node in the pair's version list. -/
inductive ILCodeVersionM where
  | unknownVer
  | syntheticVer (pModule : Nat) (methodDef : Nat)
  | explicitRef (idx : Nat)
  deriving DecidableEq

/-- The ILCodeVersion(PTR_Module, mdMethodDef) constructor: Synthetic storage
when the module pointer is non-null, Unknown otherwise. -/
def syntheticILCodeVersion (pModule methodDef : Nat) : ILCodeVersionM :=
  if pModule = 0 then .unknownVer else .syntheticVer pModule methodDef

/-- Dereference of an explicit IL version node index in its arena.  Indices
produced by the model are always in range; the default value keeps the
function total. -/
def ilNodeAt (arena : List ILCodeVersionNodeM) (idx : Nat) : ILCodeVersionNodeM :=
  (arena.get? idx).getD { rejitId := 0, rejitState := .kStateRequested, pIL := none, jitFlags := 0 }

/-- ILCodeVersion::GetRejitState: an explicit version reads its node; both the
synthetic and the null version report kStateActive (the source's else
branch covers every non-Explicit storage kind). -/
def ilRejitState (arena : List ILCodeVersionNodeM) : ILCodeVersionM → RejitState
  | .explicitRef idx => (ilNodeAt arena idx).rejitState
  | _ => .kStateActive

/-- ILCodeVersion::GetVersionId: 0 for every non-Explicit storage kind. -/
def ilVersionId (arena : List ILCodeVersionNodeM) : ILCodeVersionM → Nat
  | .explicitRef idx => (ilNodeAt arena idx).rejitId
  | _ => 0

/-- ILCodeVersion::GetJitFlags: 0 for every non-Explicit storage kind. -/
def ilJitFlags (arena : List ILCodeVersionNodeM) : ILCodeVersionM → Nat
  | .explicitRef idx => (ilNodeAt arena idx).jitFlags
  | _ => 0

/-- ILCodeVersion::IsNull: true exactly for StorageKind::Unknown. -/
def ilIsNull : ILCodeVersionM → Bool
  | .unknownVer => true
  | _ => false

/-- ILCodeVersioningState: the per-(module, token) entry of the manager's
m_ilCodeVersioningStateMap.  The constructor sets the active version to the
synthetic default version of the pair and an empty version list. -/
structure ILCodeVersioningStateM where
  pModule : Nat
  methodDef : Nat
  activeVersion : ILCodeVersionM
  ilNodes : List ILCodeVersionNodeM
  deriving DecidableEq

/-- The ILCodeVersioningState constructor. -/
def ilCodeVersioningStateNew (pModule methodDef : Nat) : ILCodeVersioningStateM :=
  { pModule := pModule, methodDef := methodDef
    activeVersion := syntheticILCodeVersion pModule methodDef
    ilNodes := [] }

/-- CodeVersionManager: the (module, token) to ILCodeVersioningState map. -/
structure CodeVersionManagerM where
  ilMap : List ((Nat × Nat) × ILCodeVersioningStateM)
  deriving DecidableEq

/-- CodeVersionManager::GetILCodeVersioningState: map lookup by key. -/
def getILCodeVersioningState (m : CodeVersionManagerM) (pModule methodDef : Nat) :
    Option ILCodeVersioningStateM :=
  (m.ilMap.find? fun e => e.1 == (pModule, methodDef)).map (·.2)

/-- CodeVersionManager::GetActiveILCodeVersion: the synthetic default version
when no ILCodeVersioningState exists for the pair, else the state's active
version. -/
def getActiveILCodeVersion (m : CodeVersionManagerM) (pModule methodDef : Nat) :
    ILCodeVersionM :=
  match getILCodeVersioningState m pModule methodDef with
  | none => syntheticILCodeVersion pModule methodDef
  | some s => s.activeVersion

/-- The node arena of a (module, token) pair (empty when no state exists). -/
def ilArenaOf (m : CodeVersionManagerM) (pModule methodDef : Nat) :
    List ILCodeVersionNodeM :=
  match getILCodeVersioningState m pModule methodDef with
  | none => []
  | some s => s.ilNodes

/-- The sequence produced by ILCodeVersionIterator for one (module, token)
pair: the synthetic default version first (IterationStage::Initial always
yields it), then the explicit nodes of the pair's list in link order. -/
def ilCodeVersionList (m : CodeVersionManagerM) (pModule methodDef : Nat) :
    List ILCodeVersionM :=
  syntheticILCodeVersion pModule methodDef ::
    (List.range (ilArenaOf m pModule methodDef).length).map .explicitRef

/-- Replaces the ILCodeVersioningState stored for a key (or adds it). -/
def setILCodeVersioningState (m : CodeVersionManagerM) (pModule methodDef : Nat)
    (s : ILCodeVersioningStateM) : CodeVersionManagerM :=
  if (m.ilMap.find? fun e => e.1 == (pModule, methodDef)).isSome then
    ⟨m.ilMap.map fun e => if e.1 == (pModule, methodDef) then (e.1, s) else e⟩
  else
    ⟨m.ilMap ++ [((pModule, methodDef), s)]⟩

/-- CodeVersionManager::AddILCodeVersion: gets or creates the pair's
ILCodeVersioningState (allocStateOk), allocates a new ILCodeVersionNode in
state kStateRequested (allocNodeOk) and links it at the head of the pair's
version list. -/
def addILCodeVersion (m : CodeVersionManagerM) (pModule methodDef rejitId : Nat)
    (allocStateOk allocNodeOk : Bool) :
    HR × CodeVersionManagerM × Option ILCodeVersionM :=
  match getILCodeVersioningState m pModule methodDef with
  | none =>
    if ¬ allocStateOk then (.eOutOfMemory, m, none)
    else
      if ¬ allocNodeOk then (.eOutOfMemory,
        setILCodeVersioningState m pModule methodDef (ilCodeVersioningStateNew pModule methodDef), none)
      else
        let node : ILCodeVersionNodeM :=
          { rejitId := rejitId, rejitState := .kStateRequested, pIL := none, jitFlags := 0 }
        (.sOk, setILCodeVersioningState m pModule methodDef
          { ilCodeVersioningStateNew pModule methodDef with ilNodes := [node] },
          some (.explicitRef 0))
  | some s =>
    if ¬ allocNodeOk then (.eOutOfMemory, m, none)
    else
      let node : ILCodeVersionNodeM :=
        { rejitId := rejitId, rejitState := .kStateRequested, pIL := none, jitFlags := 0 }
      (.sOk, setILCodeVersioningState m pModule methodDef
        { s with ilNodes := node :: s.ilNodes }, some (.explicitRef 0))

/-- ReJitManager::Revert.  In this revision the body is commented out behind a
TODO and the function returns E_NOTIMPL without transitioning the IL
version to kStateReverted or batching any undo work (rejit.cpp, the lines
directly below the contract assertions). -/
def rejitRevert (ilCodeVersion : ILCodeVersionM) : HR := .eNotImpl

/-- Result of the version-scanning loop inside ReJitManager::BindILVersion. -/
inductive BindLoopResult where
  | reuse (v : ILCodeVersionM)
  | failWith (hr : HR)
  | exitLoop
  deriving DecidableEq

/-- The loop of ReJitManager::BindILVersion over the pair's IL versions:
a kStateRequested version is reused (S_FALSE); a kStateGettingReJITParameters
or kStateActive version must first be reverted, and a failing Revert aborts
the bind; kStateReverted versions are skipped; falling out of the loop (or
Revert succeeding) proceeds to create a new version. -/
def bindILVersionLoop (arena : List ILCodeVersionNodeM) :
    List ILCodeVersionM → BindLoopResult
  | [] => .exitLoop
  | v :: rest =>
    match ilRejitState arena v with
    | .kStateRequested => .reuse v
    | .kStateGettingReJITParameters =>
      if (rejitRevert v).failed then .failWith (rejitRevert v) else .exitLoop
    | .kStateActive =>
      if (rejitRevert v).failed then .failWith (rejitRevert v) else .exitLoop
    | .kStateReverted => bindILVersionLoop arena rest

/-- ReJitManager::BindILVersion: scans GetILCodeVersions(pModule, methodDef)
with bindILVersionLoop and then either returns the reused version
(S_FALSE), propagates the failure, or links a fresh IL version with a new
global rejit id. -/
def bindILVersion (m : CodeVersionManagerM) (pModule methodDef newRejitId : Nat)
    (allocStateOk allocNodeOk : Bool) :
    HR × CodeVersionManagerM × Option ILCodeVersionM :=
  match bindILVersionLoop (ilArenaOf m pModule methodDef)
      (ilCodeVersionList m pModule methodDef) with
  | .reuse v => (.sFalse, m, some v)
  | .failWith hr => (hr, m, none)
  | .exitLoop => addILCodeVersion m pModule methodDef newRejitId allocStateOk allocNodeOk

/-- Result of the GetReJITParameters section of
ReJitManager::DoReJitIfNecessaryWorker: the updated IL version arena, how
many times ReportReJITError was called, and whether control proceeds to
DoReJit (true) or returns NULL (false). -/
structure FetchStepResult where
  arena : List ILCodeVersionNodeM
  errorReports : Nat
  continueToReJit : Bool
  deriving DecidableEq

/-- In-place update of the IL version node at an index. -/
def setILNodeAt (arena : List ILCodeVersionNodeM) (idx : Nat)
    (n : ILCodeVersionNodeM) : List ILCodeVersionNodeM :=
  arena.set idx n

/-- The fNeedsParameters section of ReJitManager::DoReJitIfNecessaryWorker for
the IL version at index idx (which the scanning loop just transitioned to
kStateGettingReJITParameters).  hr is E_OUTOFMEMORY when the
ProfilerFunctionControl allocation fails (allocOk = false), else the
profiler's GetReJITParameters result (profHr).  On failure: under the lock,
if the version is still in kStateGettingReJITParameters it transitions back
to kStateRequested, then ReportReJITError is called once and NULL is
returned.  On success: under the lock, if the version is still in
kStateGettingReJITParameters the profiler's jit flags and IL are stored and
the version transitions to kStateActive; control proceeds to DoReJit. -/
def getReJITParametersStep (arena : List ILCodeVersionNodeM) (idx : Nat)
    (allocOk : Bool) (profHr : HR) (profFlags : Nat) (profIL : Option Nat) :
    FetchStepResult :=
  let hr := if ¬ allocOk then HR.eOutOfMemory else profHr
  if hr.failed then
    let arena1 :=
      if (ilNodeAt arena idx).rejitState = .kStateGettingReJITParameters then
        setILNodeAt arena idx { ilNodeAt arena idx with rejitState := .kStateRequested }
      else arena
    { arena := arena1, errorReports := 1, continueToReJit := false }
  else
    let arena1 :=
      if (ilNodeAt arena idx).rejitState = .kStateGettingReJITParameters then
        setILNodeAt arena idx { ilNodeAt arena idx with
          rejitState := .kStateActive, jitFlags := profFlags, pIL := profIL }
      else arena
    { arena := arena1, errorReports := 0, continueToReJit := true }

/-- CodeVersionManager::CodePublishError: one (module, token, method, status)
error record. -/
structure CodePublishError where
  pModule : Nat
  methodDef : Nat
  pMethodDesc : Nat
  hrStatus : HR
  deriving DecidableEq

/-- The (Module*, mdMethodDef, MethodDesc*, HRESULT) overload of
CodeVersionManager::AddCodePublishError: appends a record, or returns
E_OUTOFMEMORY leaving the array unchanged when the append allocation
fails. -/
def addCodePublishError (pModule methodDef pMethodDesc : Nat) (hrStatus : HR)
    (allocOk : Bool) (errors : List CodePublishError) :
    HR × List CodePublishError :=
  if allocOk then
    (.sOk, errors ++ [{ pModule := pModule, methodDef := methodDef
                        pMethodDesc := pMethodDesc, hrStatus := hrStatus }])
  else
    (.eOutOfMemory, errors)

/-- The NativeCodeVersion overload of CodeVersionManager::AddCodePublishError,
the one BatchUpdateJumpStamps calls.  In this revision its body is a TODO:
it returns E_NOTIMPL and never appends to the error array (codeversion.cpp,
the commented-out block below the return). -/
def addCodePublishErrorNCV (hrStatus : HR) (errors : List CodePublishError) :
    HR × List CodePublishError :=
  (.eNotImpl, errors)

/-- One method entry of a BatchUpdateJumpStamps batch: the method's versioning
state, its code address and 8-byte entry window, and the allocation /
protection outcomes of its per-method operation. -/
structure BatchStampItem where
  vs : MethodDescVersioningState
  pbCode : Nat
  mem : List Nat
  offset4 : List Nat
  allocOk : Bool
  protectOk : Bool
  deriving DecidableEq

/-- The per-item operation of the undo loop: UndoJumpStampNativeCode with the
EE suspended (the caller asserts it holds the thread store). -/
def runUndoItem (it : BatchStampItem) : HR × MethodDescVersioningState × List Nat :=
  undoJumpStampNativeCode it.vs it.pbCode it.mem true [] it.protectOk

/-- The per-item operation of the prestub loop: JumpStampNativeCode. -/
def runPreStubItem (it : BatchStampItem) : HR × MethodDescVersioningState × List Nat :=
  jumpStampNativeCode it.vs it.pbCode it.mem it.offset4 it.allocOk [] it.protectOk

/-- One loop of CodeVersionManager::BatchUpdateJumpStamps: runs the per-item
operation on each item; a failing item is recorded through the
NativeCodeVersion overload of AddCodePublishError, and if that call itself
fails the whole batch aborts with its HRESULT. -/
def jumpStampBatchLoop (run : BatchStampItem → HR × MethodDescVersioningState × List Nat) :
    List BatchStampItem → List CodePublishError → HR × List CodePublishError
  | [], errors => (.sOk, errors)
  | it :: rest, errors =>
    let r := run it
    if r.1.failed then
      let r2 := addCodePublishErrorNCV r.1 errors
      if r2.1.failed then (r2.1, r2.2)
      else jumpStampBatchLoop run rest r2.2
    else
      jumpStampBatchLoop run rest errors

/-- CodeVersionManager::BatchUpdateJumpStamps: the undo loop over pUndoMethods
followed by the prestub loop over pPreStubMethods, threading the error
array; an abort in the undo loop returns without running the prestub
loop. -/
def batchUpdateJumpStamps (undoMethods preStubMethods : List BatchStampItem)
    (errors : List CodePublishError) : HR × List CodePublishError :=
  let r := jumpStampBatchLoop runUndoItem undoMethods errors
  if r.1.failed then r
  else jumpStampBatchLoop runPreStubItem preStubMethods r.2

/-- ReJitManager::RequestRevertByToken.  In this revision the body is
commented out behind a TODO and the function returns E_NOTIMPL; the
commented-out body is the one that would return
CORPROF_E_ACTIVE_REJIT_REQUEST_NOT_FOUND for a method with no non-reverted
rejit request. -/
def requestRevertByToken (pModule methodDef : Nat) : HR := .eNotImpl

/-- One (ModuleID, mdMethodDef) entry of a RequestRevert batch together with
the module predicates the validation tests. -/
structure RevertRequestItem where
  pModule : Nat
  methodDef : Nat
  tokenIsMethodDef : Bool
  moduleIsBeingUnloaded : Bool
  moduleIsReflection : Bool
  deriving DecidableEq

/-- The per-item body of ReJitManager::RequestRevert: validation in source
order (null module or wrong token kind, module being unloaded, reflection
module), then RequestRevertByToken. -/
def requestRevertItemStatus (it : RevertRequestItem) : HR :=
  if it.pModule = 0 ∨ ¬ it.tokenIsMethodDef then .eInvalidArg
  else if it.moduleIsBeingUnloaded then .corprofEDataIncomplete
  else if it.moduleIsReflection then .corprofEModuleIsDynamic
  else requestRevertByToken it.pModule it.methodDef

/-- ReJitManager::RequestRevert: suspends the EE, computes each item's status
into rgHrStatuses, resumes, and returns S_OK overall. -/
def requestRevert (items : List RevertRequestItem) : HR × List HR :=
  (.sOk, items.map requestRevertItemStatus)

/-- Converts an ILCodeVersion handle into the view the native-code-version
iterator observes of it (IsNull / IsDefaultVersion / GetVersionId). -/
def ilVerFilterOf (arena : List ILCodeVersionNodeM) : ILCodeVersionM → ILVerFilter
  | .unknownVer => .nullFilter
  | .syntheticVer _ _ => .defaultFilter
  | .explicitRef idx => .explicitFilter (ilNodeAt arena idx).rejitId

/-- The state touched by TieredCompilationManager::AsyncPromoteMethodToTier1
for one method: the method's native versioning state, the (module, token)
pair's IL versioning entry, and the m_methodsToOptimize queue. -/
structure TieredState where
  pModule : Nat
  methodDef : Nat
  method : MethodState
  ilState : Option ILCodeVersioningStateM
  queue : List NativeCodeVersionRef
  deriving DecidableEq

/-- GetActiveILCodeVersion as seen by the tiered manager for its method. -/
def tieredActiveILVersion (st : TieredState) : ILCodeVersionM :=
  match st.ilState with
  | none => syntheticILCodeVersion st.pModule st.methodDef
  | some s => s.activeVersion

/-- The IL node arena of the tiered manager's method. -/
def tieredILArena (st : TieredState) : List ILCodeVersionNodeM :=
  match st.ilState with
  | none => []
  | some s => s.ilNodes

/-- The iterator view of the method's active IL version. -/
def tieredActiveFilter (st : TieredState) : ILVerFilter :=
  ilVerFilterOf (tieredILArena st) (tieredActiveILVersion st)

/-- TieredCompilationManager::AsyncPromoteMethodToTier1: under the table lock,
scans the native code versions of the method's active IL version and
returns unchanged if one is already OptimizationTier1; otherwise adds a new
(inactive, tier 0) native code version bound to the active IL version,
gives up on allocation failure, tags the new version OptimizationTier1, and
appends it to m_methodsToOptimize (silently skipping the append when the
SListElem allocation fails). -/
def asyncPromoteMethodToTier1 (st : TieredState)
    (allocStateOk allocNodeOk allocListItemOk : Bool) : TieredState :=
  let filter := tieredActiveFilter st
  if (nativeCodeVersionList st.method filter).any
      (fun v => getOptimizationTier st.method v == OptimizationTier.tier1) then
    st
  else
    let r := addNativeCodeVersion st.method filter allocStateOk allocNodeOk
    if r.1.failed then
      { st with method := r.2.1 }
    else
      match r.2.2 with
      | some (.nodeRef i) =>
        { st with
          method := setOptimizationTierById r.2.1 i .tier1
          queue := if allocListItemOk then st.queue ++ [NativeCodeVersionRef.nodeRef i]
                   else st.queue }
      | _ => { st with method := r.2.1 }

section Lemmas

/-- Helper: taking the written width of a prefix of known length. -/
lemma take_append_of_length_eq {l₁ l₂ : List Nat} {n : Nat} (h : l₁.length = n) :
    (l₁ ++ l₂).take n = l₁ :=
  List.take_left' h

/-- Helper: dropping a prefix of known length. -/
lemma drop_append_of_length_eq {l₁ l₂ : List Nat} {n : Nat} (h : l₁.length = n) :
    (l₁ ++ l₂).drop n = l₂ :=
  List.drop_left' h

/-- Shape of an uncontended successful UpdateJumpStampHelper call. -/
lemma updateJumpStampHelper_uncontended (pbCode : Nat) (mem newVal : List Nat)
    (patchTable : List Nat) :
    updateJumpStampHelper pbCode mem newVal false patchTable true =
      (.sOk, writeBytes JumpStubSize newVal mem) := by
  simp [updateJumpStampHelper]

/-- Shape of a successful JumpStampNativeCode run from the unstamped state. -/
lemma jumpStampNativeCode_run (vs : MethodDescVersioningState) (pbCode : Nat)
    (mem offset4 : List Nat) (hstate : vs.jumpStampState = .jumpStampNone)
    (hoff : offset4.length = 4) :
    jumpStampNativeCode vs pbCode mem offset4 true [] true =
      (.sOk,
        { vs with savedCode := mem.take JumpStubSize,
                  jumpStampState := .jumpStampToPrestub },
        jmpRel32 :: offset4 ++ mem.drop JumpStubSize) := by
  have hne : ¬ vs.jumpStampState = .jumpStampToPrestub := by
    rw [hstate]; exact fun h => JumpStampFlags.noConfusion h
  have htake : (jmpRel32 :: (offset4 ++ (mem.drop JumpStubSize).take 3)).take JumpStubSize =
      jmpRel32 :: offset4 := by
    show (jmpRel32 :: (offset4 ++ (mem.drop JumpStubSize).take 3)).take (4 + 1) = _
    rw [List.take_succ_cons]
    rw [take_append_of_length_eq hoff]
  simp only [jumpStampNativeCode, hne, if_false, updateJumpStampHelper_uncontended,
    writeBytes, htake, if_true, HR.failed]
  simp

/-- Shape of a successful UndoJumpStampNativeCode call with the EE suspended. -/
lemma undoJumpStampNativeCode_run (vs : MethodDescVersioningState) (pbCode : Nat)
    (mem : List Nat) (hsaved : vs.savedCode.length = JumpStubSize) :
    undoJumpStampNativeCode vs pbCode mem true [] true =
      (.sOk, { vs with jumpStampState := .jumpStampNone },
        vs.savedCode ++ mem.drop JumpStubSize) := by
  have htake : (vs.savedCode ++ (mem.drop JumpStubSize).take 3).take JumpStubSize =
      vs.savedCode := take_append_of_length_eq hsaved
  simp [undoJumpStampNativeCode, updateJumpStampHelper, writeBytes, htake]

end Lemmas

/-- C1: the claim says BatchUpdateJumpStamps continues past a per-item
jump-stamp failure, appending one (module, token, method, error) record per
failure and aborting only when recording an error hits an allocation
failure.  In this revision the NativeCodeVersion overload of
AddCodePublishError is an unimplemented TODO returning E_NOTIMPL, so the
first per-item failure aborts the whole batch with E_NOTIMPL and records
nothing: a batch with a single redirect item whose jump-stamp operation
fails with E_OUTOFMEMORY returns E_NOTIMPL with an empty error list. -/
theorem c1_batch_update_jump_stamps_aborts_without_recording :
    batchUpdateJumpStamps []
      [{ vs := mdvsNew, pbCode := 0, mem := [0x55, 0x8b, 0xec, 0x83, 0xe4, 0x90, 0x91, 0x92],
         offset4 := [1, 2, 3, 4], allocOk := false, protectOk := true }] []
      = (.eNotImpl, []) := by
  decide

/-- C2: the claim says BindILVersion reuses an existing kStateRequested
version or reverts an existing kStateGettingReJITParameters / kStateActive
version before linking a new one.  In this revision the IL version iterator
yields the synthetic default version (whose rejit state reads
kStateActive) before any explicit version, so the loop's first iteration
always takes the revert path, and the stubbed Revert returns E_NOTIMPL:
BindILVersion fails with E_NOTIMPL on every input, never reusing,
reverting, or linking anything. -/
theorem c2_bind_il_version_always_fails_notimpl (m : CodeVersionManagerM)
    (pModule methodDef newRejitId : Nat) (allocStateOk allocNodeOk : Bool) :
    bindILVersion m pModule methodDef newRejitId allocStateOk allocNodeOk =
      (.eNotImpl, m, none) := by
  have hsyn : ilRejitState (ilArenaOf m pModule methodDef)
      (syntheticILCodeVersion pModule methodDef) = .kStateActive := by
    by_cases h : pModule = 0 <;> simp [syntheticILCodeVersion, h, ilRejitState]
  simp [bindILVersion, ilCodeVersionList, bindILVersionLoop, hsyn, rejitRevert, HR.failed]

/-- C7: with contention possible and a code address that is not 8-byte
aligned, UpdateJumpStampHelper returns the distinguished
CORPROF_E_RUNTIME_SUSPEND_REQUIRED value (the internal retry signal, not an
ordinary failure) before any write, leaving the jump-stamp region
unchanged. -/
theorem c7_update_jump_stamp_unaligned_requires_suspension (pbCode : Nat)
    (mem i64NewValue : List Nat) (patchTable : List Nat) (protectOk : Bool)
    (halign : pbCode % 8 ≠ 0) :
    updateJumpStampHelper pbCode mem i64NewValue true patchTable protectOk =
      (.corprofESuspendRequired, mem) := by
  simp [updateJumpStampHelper, halign]

/-- Witness for C7 at the concrete unaligned address 3. -/
theorem c7_update_jump_stamp_unaligned_requires_suspension_witness :
    (3 : Nat) % 8 ≠ 0 ∧
    updateJumpStampHelper 3 [1, 2, 3, 4, 5, 6, 7, 8] [9, 9, 9, 9, 9, 9, 9, 9] true [] true =
      (.corprofESuspendRequired, [1, 2, 3, 4, 5, 6, 7, 8]) :=
  ⟨by decide,
    c7_update_jump_stamp_unaligned_requires_suspension 3 [1, 2, 3, 4, 5, 6, 7, 8]
      [9, 9, 9, 9, 9, 9, 9, 9] [] true (by decide)⟩

/-- C9: the claim (and the function's own header comment) says a revert of a
valid, loaded, non-dynamic, never-rejitted method yields the distinguished
CORPROF_E_ACTIVE_REJIT_REQUEST_NOT_FOUND per-item result.  In this revision
RequestRevertByToken is an unimplemented TODO, so such an item's result is
E_NOTIMPL instead of the distinguished not-found value. -/
theorem c9_request_revert_never_rejitted_notimpl (it : RevertRequestItem)
    (h1 : it.pModule ≠ 0) (h2 : it.tokenIsMethodDef = true)
    (h3 : it.moduleIsBeingUnloaded = false) (h4 : it.moduleIsReflection = false) :
    requestRevertItemStatus it = .eNotImpl ∧
    requestRevertItemStatus it ≠ .corprofERejitRequestNotFound := by
  simp [requestRevertItemStatus, h1, h2, h3, h4, requestRevertByToken]

/-- Witness for C9 at a concrete valid item. -/
theorem c9_request_revert_never_rejitted_notimpl_witness :
    requestRevertItemStatus
      { pModule := 5, methodDef := 9, tokenIsMethodDef := true,
        moduleIsBeingUnloaded := false, moduleIsReflection := false } = .eNotImpl ∧
    requestRevertItemStatus
      { pModule := 5, methodDef := 9, tokenIsMethodDef := true,
        moduleIsBeingUnloaded := false, moduleIsReflection := false } ≠
      .corprofERejitRequestNotFound :=
  c9_request_revert_never_rejitted_notimpl _ (by decide) rfl rfl rfl

/-- C10: the synthetic default ILCodeVersion of a (module, token) pair
reports rejit state kStateActive, version id 0 and jit flags 0, and
GetActiveILCodeVersion returns exactly it whenever no ILCodeVersioningState
exists for the pair, so the lookup never yields a null version. -/
theorem c10_default_il_version_active (m : CodeVersionManagerM)
    (pModule methodDef : Nat) (hmod : pModule ≠ 0)
    (hnone : getILCodeVersioningState m pModule methodDef = none) :
    getActiveILCodeVersion m pModule methodDef = .syntheticVer pModule methodDef ∧
    ilRejitState (ilArenaOf m pModule methodDef)
      (getActiveILCodeVersion m pModule methodDef) = .kStateActive ∧
    ilVersionId (ilArenaOf m pModule methodDef)
      (getActiveILCodeVersion m pModule methodDef) = 0 ∧
    ilJitFlags (ilArenaOf m pModule methodDef)
      (getActiveILCodeVersion m pModule methodDef) = 0 ∧
    ilIsNull (getActiveILCodeVersion m pModule methodDef) = false := by
  have h : getActiveILCodeVersion m pModule methodDef = .syntheticVer pModule methodDef := by
    simp [getActiveILCodeVersion, hnone, syntheticILCodeVersion, hmod]
  refine ⟨h, ?_, ?_, ?_, ?_⟩ <;> rw [h] <;> rfl

/-- Witness for C10 on an empty manager. -/
theorem c10_default_il_version_active_witness :
    getActiveILCodeVersion ⟨[]⟩ 1 2 = .syntheticVer 1 2 ∧
    ilRejitState (ilArenaOf ⟨[]⟩ 1 2) (getActiveILCodeVersion ⟨[]⟩ 1 2) = .kStateActive ∧
    ilVersionId (ilArenaOf ⟨[]⟩ 1 2) (getActiveILCodeVersion ⟨[]⟩ 1 2) = 0 ∧
    ilJitFlags (ilArenaOf ⟨[]⟩ 1 2) (getActiveILCodeVersion ⟨[]⟩ 1 2) = 0 ∧
    ilIsNull (getActiveILCodeVersion ⟨[]⟩ 1 2) = false :=
  c10_default_il_version_active ⟨[]⟩ 1 2 (by decide) rfl

/-- C3: for a method in the unstamped state, installing the redirector jump
stamp with JumpStampNativeCode and then reverting with
UndoJumpStampNativeCode succeeds, restores the 8-byte entry window (in
particular its first JumpStubSize bytes) byte-for-byte, and returns the
jump-stamp state to JumpStampNone. -/
theorem c3_jump_stamp_round_trip (vs : MethodDescVersioningState) (pbCode : Nat)
    (mem offset4 : List Nat) (hstate : vs.jumpStampState = .jumpStampNone)
    (hmem : mem.length = 8) (hoff : offset4.length = 4) :
    (jumpStampNativeCode vs pbCode mem offset4 true [] true).1 = .sOk ∧
    (undoJumpStampNativeCode (jumpStampNativeCode vs pbCode mem offset4 true [] true).2.1
      pbCode (jumpStampNativeCode vs pbCode mem offset4 true [] true).2.2 true [] true).1 = .sOk ∧
    (undoJumpStampNativeCode (jumpStampNativeCode vs pbCode mem offset4 true [] true).2.1
      pbCode (jumpStampNativeCode vs pbCode mem offset4 true [] true).2.2 true [] true).2.2 = mem ∧
    (undoJumpStampNativeCode (jumpStampNativeCode vs pbCode mem offset4 true [] true).2.1
      pbCode (jumpStampNativeCode vs pbCode mem offset4 true [] true).2.2 true []
      true).2.1.jumpStampState = .jumpStampNone := by
  have h1 := jumpStampNativeCode_run vs pbCode mem offset4 hstate hoff
  rw [h1]
  have hsaved :
      ({ vs with
          savedCode := mem.take JumpStubSize
          jumpStampState := JumpStampFlags.jumpStampToPrestub } :
        MethodDescVersioningState).savedCode.length = JumpStubSize := by
    simp [List.length_take, hmem, JumpStubSize]
  have h2 := undoJumpStampNativeCode_run _ pbCode
    (jmpRel32 :: offset4 ++ mem.drop JumpStubSize) hsaved
  rw [h2]
  have hdrop : (jmpRel32 :: offset4 ++ mem.drop JumpStubSize).drop JumpStubSize =
      mem.drop JumpStubSize := by
    show (jmpRel32 :: (offset4 ++ mem.drop JumpStubSize)).drop (4 + 1) = _
    rw [List.drop_succ_cons]
    exact drop_append_of_length_eq hoff
  refine ⟨rfl, rfl, ?_, rfl⟩
  simp only [hdrop]
  exact List.take_append_drop JumpStubSize mem

/-- Witness for C3 on a concrete unstamped method. -/
theorem c3_jump_stamp_round_trip_witness :
    mdvsNew.jumpStampState = .jumpStampNone ∧
    ([0x55, 0x8b, 0xec, 0x83, 0xe4, 0x90, 0x91, 0x92] : List Nat).length = 8 ∧
    (jumpStampNativeCode mdvsNew 16 [0x55, 0x8b, 0xec, 0x83, 0xe4, 0x90, 0x91, 0x92]
      [1, 2, 3, 4] true [] true).1 = .sOk ∧
    (undoJumpStampNativeCode
      (jumpStampNativeCode mdvsNew 16 [0x55, 0x8b, 0xec, 0x83, 0xe4, 0x90, 0x91, 0x92]
        [1, 2, 3, 4] true [] true).2.1 16
      (jumpStampNativeCode mdvsNew 16 [0x55, 0x8b, 0xec, 0x83, 0xe4, 0x90, 0x91, 0x92]
        [1, 2, 3, 4] true [] true).2.2 true [] true).1 = .sOk ∧
    (undoJumpStampNativeCode
      (jumpStampNativeCode mdvsNew 16 [0x55, 0x8b, 0xec, 0x83, 0xe4, 0x90, 0x91, 0x92]
        [1, 2, 3, 4] true [] true).2.1 16
      (jumpStampNativeCode mdvsNew 16 [0x55, 0x8b, 0xec, 0x83, 0xe4, 0x90, 0x91, 0x92]
        [1, 2, 3, 4] true [] true).2.2 true [] true).2.2 =
      [0x55, 0x8b, 0xec, 0x83, 0xe4, 0x90, 0x91, 0x92] ∧
    (undoJumpStampNativeCode
      (jumpStampNativeCode mdvsNew 16 [0x55, 0x8b, 0xec, 0x83, 0xe4, 0x90, 0x91, 0x92]
        [1, 2, 3, 4] true [] true).2.1 16
      (jumpStampNativeCode mdvsNew 16 [0x55, 0x8b, 0xec, 0x83, 0xe4, 0x90, 0x91, 0x92]
        [1, 2, 3, 4] true [] true).2.2 true [] true).2.1.jumpStampState = .jumpStampNone :=
  ⟨rfl, rfl,
    c3_jump_stamp_round_trip mdvsNew 16 [0x55, 0x8b, 0xec, 0x83, 0xe4, 0x90, 0x91, 0x92]
      [1, 2, 3, 4] rfl rfl rfl⟩

/-- C4 counterexample: the claim says a failed GetReJITParameters fetch leaves
the IL version kStateActive with the original IL.  Running the fetch-failure
section on a version in kStateGettingReJITParameters instead transitions it
back to kStateRequested, not kStateActive. -/
theorem c4_counterexample_fetch_failure_not_active :
    (getReJITParametersStep
        [{ rejitId := 7, rejitState := .kStateGettingReJITParameters, pIL := none, jitFlags := 0 }]
        0 true .eUnexpected 0 none).arena =
      [{ rejitId := 7, rejitState := .kStateRequested, pIL := none, jitFlags := 0 }] ∧
    (ilNodeAt (getReJITParametersStep
        [{ rejitId := 7, rejitState := .kStateGettingReJITParameters, pIL := none, jitFlags := 0 }]
        0 true .eUnexpected 0 none).arena 0).rejitState ≠ .kStateActive := by
  decide

/-- Helper: a version index whose node reads kStateGettingReJITParameters is
in range (the out-of-range default reads kStateRequested). -/
lemma ilNodeAt_lt_of_getting (arena : List ILCodeVersionNodeM) (idx : Nat)
    (h : (ilNodeAt arena idx).rejitState = .kStateGettingReJITParameters) :
    idx < arena.length := by
  by_contra hn
  push_neg at hn
  have hnone : arena.get? idx = none := List.get?_eq_none.mpr hn
  simp only [ilNodeAt, hnone, Option.getD_none] at h
  exact RejitState.noConfusion h

/-- Helper: reading back the node just written at an in-range index. -/
lemma ilNodeAt_setILNodeAt_self (arena : List ILCodeVersionNodeM) (idx : Nat)
    (n : ILCodeVersionNodeM) (h : idx < arena.length) :
    ilNodeAt (setILNodeAt arena idx n) idx = n := by
  induction arena generalizing idx with
  | nil => simp at h
  | cons a l ih =>
    cases idx with
    | zero => simp [ilNodeAt, setILNodeAt]
    | succ k =>
      have hk : k < l.length := by simpa using h
      simpa [ilNodeAt, setILNodeAt] using ih k hk

/-- C4 (amended): when the deferred GetReJITParameters fetch fails for an IL
version in kStateGettingReJITParameters, the coordinator transitions the
version back to kStateRequested (not kStateActive), reports the error
exactly once, and returns NULL so the original code runs this time; the
fetch is re-attempted (with a fresh error report) on a later execution
rather than silently, since kStateRequested re-enters the fetch path. -/
theorem c4_fetch_failure_returns_to_requested (arena : List ILCodeVersionNodeM)
    (idx : Nat) (profHr : HR) (profFlags : Nat) (profIL : Option Nat)
    (hfail : profHr.failed = true)
    (hstate : (ilNodeAt arena idx).rejitState = .kStateGettingReJITParameters) :
    (getReJITParametersStep arena idx true profHr profFlags profIL).errorReports = 1 ∧
    (getReJITParametersStep arena idx true profHr profFlags profIL).continueToReJit = false ∧
    (ilNodeAt (getReJITParametersStep arena idx true profHr profFlags profIL).arena
      idx).rejitState = .kStateRequested := by
  have hlt := ilNodeAt_lt_of_getting arena idx hstate
  simp [getReJITParametersStep, hfail, hstate,
    ilNodeAt_setILNodeAt_self arena idx _ hlt]

/-- Witness for the amended C4 on a concrete one-version arena. -/
theorem c4_fetch_failure_returns_to_requested_witness :
    HR.failed .eUnexpected = true ∧
    (getReJITParametersStep
        [{ rejitId := 7, rejitState := .kStateGettingReJITParameters, pIL := none, jitFlags := 0 }]
        0 true .eUnexpected 0 none).errorReports = 1 ∧
    (getReJITParametersStep
        [{ rejitId := 7, rejitState := .kStateGettingReJITParameters, pIL := none, jitFlags := 0 }]
        0 true .eUnexpected 0 none).continueToReJit = false ∧
    (ilNodeAt (getReJITParametersStep
        [{ rejitId := 7, rejitState := .kStateGettingReJITParameters, pIL := none, jitFlags := 0 }]
        0 true .eUnexpected 0 none).arena 0).rejitState = .kStateRequested :=
  ⟨rfl, c4_fetch_failure_returns_to_requested
    [{ rejitId := 7, rejitState := .kStateGettingReJITParameters, pIL := none, jitFlags := 0 }]
    0 .eUnexpected 0 none rfl rfl⟩

/-- C5 counterexample: the claim says the saved-original-code buffer's first
byte is zero whenever the jump-stamp state is JumpStampNone, including
after a revert.  Stamping a fresh method whose entry byte is 0x55 and then
reverting leaves the state JumpStampNone while the buffer still holds the
saved 0x55 (UndoJumpStampNativeCode does not clear m_rgSavedCode). -/
theorem c5_counterexample_saved_byte_after_revert :
    (undoJumpStampNativeCode
      (jumpStampNativeCode mdvsNew 16 [0x55, 0x8b, 0xec, 0x83, 0xe4, 0x90, 0x91, 0x92]
        [1, 2, 3, 4] true [] true).2.1 16
      (jumpStampNativeCode mdvsNew 16 [0x55, 0x8b, 0xec, 0x83, 0xe4, 0x90, 0x91, 0x92]
        [1, 2, 3, 4] true [] true).2.2 true [] true).2.1.jumpStampState = .jumpStampNone ∧
    (undoJumpStampNativeCode
      (jumpStampNativeCode mdvsNew 16 [0x55, 0x8b, 0xec, 0x83, 0xe4, 0x90, 0x91, 0x92]
        [1, 2, 3, 4] true [] true).2.1 16
      (jumpStampNativeCode mdvsNew 16 [0x55, 0x8b, 0xec, 0x83, 0xe4, 0x90, 0x91, 0x92]
        [1, 2, 3, 4] true [] true).2.2 true [] true).2.1.savedCode.getD 0 0 ≠ 0 := by
  decide

/-- C5 (amended): the buffer starts zeroed with the state JumpStampNone at
construction; a successful stamp of code whose first byte is non-zero
leaves the state stamped with the buffer's first byte that non-zero code
byte; a revert returns the state to JumpStampNone but leaves the saved
buffer unchanged (in particular its first byte stays non-zero), so
non-zero-first-byte implies a stamp was installed at some point but not
that one is installed now. -/
theorem c5_saved_code_first_byte_lifecycle (vs : MethodDescVersioningState)
    (pbCode : Nat) (mem offset4 : List Nat)
    (hstate : vs.jumpStampState = .jumpStampNone)
    (hmem : mem.length = 8) (hoff : offset4.length = 4)
    (hfirst : mem.getD 0 0 ≠ 0) :
    mdvsNew.savedCode.getD 0 0 = 0 ∧
    mdvsNew.jumpStampState = .jumpStampNone ∧
    (jumpStampNativeCode vs pbCode mem offset4 true [] true).2.1.jumpStampState =
      .jumpStampToPrestub ∧
    (jumpStampNativeCode vs pbCode mem offset4 true [] true).2.1.savedCode.getD 0 0 ≠ 0 ∧
    (undoJumpStampNativeCode (jumpStampNativeCode vs pbCode mem offset4 true [] true).2.1
      pbCode (jumpStampNativeCode vs pbCode mem offset4 true [] true).2.2 true []
      true).2.1.jumpStampState = .jumpStampNone ∧
    (undoJumpStampNativeCode (jumpStampNativeCode vs pbCode mem offset4 true [] true).2.1
      pbCode (jumpStampNativeCode vs pbCode mem offset4 true [] true).2.2 true []
      true).2.1.savedCode =
      (jumpStampNativeCode vs pbCode mem offset4 true [] true).2.1.savedCode := by
  have h1 := jumpStampNativeCode_run vs pbCode mem offset4 hstate hoff
  rw [h1]
  have hsaved :
      ({ vs with
          savedCode := mem.take JumpStubSize
          jumpStampState := JumpStampFlags.jumpStampToPrestub } :
        MethodDescVersioningState).savedCode.length = JumpStubSize := by
    simp [List.length_take, hmem, JumpStubSize]
  have h2 := undoJumpStampNativeCode_run _ pbCode
    (jmpRel32 :: offset4 ++ mem.drop JumpStubSize) hsaved
  rw [h2]
  have htake0 : (mem.take JumpStubSize).getD 0 0 = mem.getD 0 0 := by
    cases mem with
    | nil => simp at hmem
    | cons b rest => simp [JumpStubSize]
  refine ⟨rfl, rfl, rfl, ?_, rfl, rfl⟩
  show (mem.take JumpStubSize).getD 0 0 ≠ 0
  rw [htake0]
  exact hfirst

/-- Witness for the amended C5 on a concrete method entry. -/
theorem c5_saved_code_first_byte_lifecycle_witness :
    mdvsNew.jumpStampState = .jumpStampNone ∧
    ([0x55, 0x8b, 0xec, 0x83, 0xe4, 0x90, 0x91, 0x92] : List Nat).getD 0 0 ≠ 0 ∧
    (mdvsNew.savedCode.getD 0 0 = 0 ∧
     mdvsNew.jumpStampState = .jumpStampNone ∧
     (jumpStampNativeCode mdvsNew 16 [0x55, 0x8b, 0xec, 0x83, 0xe4, 0x90, 0x91, 0x92]
       [1, 2, 3, 4] true [] true).2.1.jumpStampState = .jumpStampToPrestub ∧
     (jumpStampNativeCode mdvsNew 16 [0x55, 0x8b, 0xec, 0x83, 0xe4, 0x90, 0x91, 0x92]
       [1, 2, 3, 4] true [] true).2.1.savedCode.getD 0 0 ≠ 0 ∧
     (undoJumpStampNativeCode
       (jumpStampNativeCode mdvsNew 16 [0x55, 0x8b, 0xec, 0x83, 0xe4, 0x90, 0x91, 0x92]
         [1, 2, 3, 4] true [] true).2.1 16
       (jumpStampNativeCode mdvsNew 16 [0x55, 0x8b, 0xec, 0x83, 0xe4, 0x90, 0x91, 0x92]
         [1, 2, 3, 4] true [] true).2.2 true [] true).2.1.jumpStampState = .jumpStampNone ∧
     (undoJumpStampNativeCode
       (jumpStampNativeCode mdvsNew 16 [0x55, 0x8b, 0xec, 0x83, 0xe4, 0x90, 0x91, 0x92]
         [1, 2, 3, 4] true [] true).2.1 16
       (jumpStampNativeCode mdvsNew 16 [0x55, 0x8b, 0xec, 0x83, 0xe4, 0x90, 0x91, 0x92]
         [1, 2, 3, 4] true [] true).2.2 true [] true).2.1.savedCode =
       (jumpStampNativeCode mdvsNew 16 [0x55, 0x8b, 0xec, 0x83, 0xe4, 0x90, 0x91, 0x92]
         [1, 2, 3, 4] true [] true).2.1.savedCode) :=
  ⟨rfl, by decide,
    c5_saved_code_first_byte_lifecycle mdvsNew 16
      [0x55, 0x8b, 0xec, 0x83, 0xe4, 0x90, 0x91, 0x92] [1, 2, 3, 4] rfl rfl rfl (by decide)⟩

/-- Helper: an id-keyed pointer update leaves nodes with other ids alone. -/
lemma updateById_skips (old : List NativeCodeVersionNode) (i : Nat)
    (f : NativeCodeVersionNode → NativeCodeVersionNode)
    (h : ∀ n ∈ old, n.id ≠ i) :
    (old.map fun n => if n.id == i then f n else n) = old := by
  induction old with
  | nil => rfl
  | cons a t ih =>
    have ha : (a.id == i) = false := by
      simp [h a (List.mem_cons_self a t)]
    have ht := ih fun n hn => h n (List.mem_cons_of_mem a hn)
    rw [List.map_cons, ht, ha]
    simp

/-- Helper: GetOrCreateMethodDescVersioningState with a succeeding allocation
returns the existing state or a fresh one. -/
lemma getOrCreate_alloc (st : MethodState) :
    getOrCreateMethodDescVersioningState st true = (.sOk, some (st.mdvs.getD mdvsNew)) := by
  cases h : st.mdvs <;> simp [getOrCreateMethodDescVersioningState, h]

/-- Helper: the new node linked for an IL version always matches that IL
version's filter in the iterator. -/
lemma nodeMatches_new (ilv : ILVerFilter) (b : Bool) (i : Nat) :
    nodeMatches ilv (newNCVNode i ilv.versionId b) = true := by
  simp [nodeMatches, newNCVNode]

/-- Helper: marking the freshly linked node active updates exactly it. -/
lemma setActiveChildFlagById_fresh (vs : MethodDescVersioningState) (parent : Nat)
    (hfresh : ∀ n ∈ vs.nodes, n.id ≠ vs.nextId) :
    setActiveChildFlagById (newNCVNode vs.nextId parent false :: vs.nodes) vs.nextId true =
      newNCVNode vs.nextId parent true :: vs.nodes := by
  unfold setActiveChildFlagById
  rw [List.map_cons, updateById_skips vs.nodes vs.nextId _ hfresh]
  simp [newNCVNode]

/-- Helper: full behavior of the AddNativeCodeVersion tail under the arena id
discipline: the new node is linked at the head with the next id, and its
active-child flag records whether the IL version had no active child at
link time. -/
lemma addNativeCodeVersionLinked_run (vs : MethodDescVersioningState)
    (ilv : ILVerFilter) (hwf : ∀ n ∈ vs.nodes, n.id < vs.nextId) :
    addNativeCodeVersionLinked vs ilv true =
      (.sOk,
        ⟨some (mdvsLinked vs ilv
          (getActiveNativeCodeVersion ⟨some (mdvsLinked vs ilv false)⟩ ilv).isNone)⟩,
        some (.nodeRef vs.nextId)) := by
  have hfresh : ∀ n ∈ vs.nodes, n.id ≠ vs.nextId := fun n hn => Nat.ne_of_lt (hwf n hn)
  by_cases hact : (getActiveNativeCodeVersion ⟨some (mdvsLinked vs ilv false)⟩ ilv).isNone
  · have hact' := hact
    simp only [mdvsLinked, newNCVNode] at hact'
    simp [addNativeCodeVersionLinked, mdvsLinked, newNCVNode, hact, hact']
    simpa [newNCVNode] using setActiveChildFlagById_fresh vs ilv.versionId hfresh
  · have hact' := hact
    simp only [mdvsLinked, newNCVNode] at hact'
    simp [addNativeCodeVersionLinked, mdvsLinked, newNCVNode, hact, hact']


/-- Helper: AddNativeCodeVersion tail behavior when the IL version has no
native code version at all yet: the new node is linked, marked active
child, and becomes the result of GetActiveNativeCodeVersion. -/
lemma addLinked_first_active (vsB : MethodDescVersioningState) (ilv : ILVerFilter)
    (hwfB : ∀ n ∈ vsB.nodes, n.id < vsB.nextId)
    (hcond : (ilv.isNull || ilv.isDefault) = false)
    (hfilter : vsB.nodes.filter (nodeMatches ilv) = []) :
    (addNativeCodeVersionLinked vsB ilv true).1 = .sOk ∧
    (addNativeCodeVersionLinked vsB ilv true).2.2 = some (.nodeRef vsB.nextId) ∧
    isActiveChildVersion (addNativeCodeVersionLinked vsB ilv true).2.1
      (.nodeRef vsB.nextId) = true ∧
    getActiveNativeCodeVersion (addNativeCodeVersionLinked vsB ilv true).2.1 ilv =
      some (.nodeRef vsB.nextId) := by
  have hnull : ilv.isNull = false := by
    cases h : ilv.isNull
    · rfl
    · rw [h] at hcond; simp at hcond
  have hdef : ilv.isDefault = false := by
    cases h : ilv.isDefault
    · rfl
    · rw [h] at hcond; simp at hcond
  have hact : getActiveNativeCodeVersion ⟨some (mdvsLinked vsB ilv false)⟩ ilv = none := by
    simp [getActiveNativeCodeVersion, nativeCodeVersionList, mdvsLinked,
      List.filter_cons, nodeMatches, newNCVNode, hnull, hdef, hfilter,
      isActiveChildVersion, findNode]
  rw [addNativeCodeVersionLinked_run vsB ilv hwfB, hact]
  simp only [Option.isNone_none]
  refine ⟨by simp, by simp, ?_, ?_⟩
  · simp [isActiveChildVersion, findNode, mdvsLinked, newNCVNode]
  · simp [getActiveNativeCodeVersion, nativeCodeVersionList, mdvsLinked,
      List.filter_cons, nodeMatches, newNCVNode, hnull, hdef, hfilter,
      isActiveChildVersion, findNode]

/-- C6: a call to AddNativeCodeVersion that links the first native code
version for its IL version and method (the version had no native code
version at all before the call) marks the newly created record as the
active child, and GetActiveNativeCodeVersion on that IL version then
returns exactly the newly added record. -/
theorem c6_first_native_version_immediately_active (st : MethodState)
    (ilv : ILVerFilter) (hwf : MethodStateWf st)
    (hfirst : nativeCodeVersionList st ilv = []) :
    (addNativeCodeVersion st ilv true true).1 = .sOk ∧
    (addNativeCodeVersion st ilv true true).2.2 =
      some (.nodeRef (st.mdvs.getD mdvsNew).nextId) ∧
    isActiveChildVersion (addNativeCodeVersion st ilv true true).2.1
      (.nodeRef (st.mdvs.getD mdvsNew).nextId) = true ∧
    getActiveNativeCodeVersion (addNativeCodeVersion st ilv true true).2.1 ilv =
      some (.nodeRef (st.mdvs.getD mdvsNew).nextId) := by
  have hcond : (ilv.isNull || ilv.isDefault) = false := by
    cases hc : (ilv.isNull || ilv.isDefault)
    · rfl
    · rw [nativeCodeVersionList, hc] at hfirst
      simp at hfirst
  have hfilterB : (st.mdvs.getD mdvsNew).nodes.filter (nodeMatches ilv) = [] := by
    cases h : st.mdvs with
    | none => simp [mdvsNew]
    | some vs =>
      rw [nativeCodeVersionList, hcond, h] at hfirst
      simpa using hfirst
  have hwfB : ∀ n ∈ (st.mdvs.getD mdvsNew).nodes, n.id < (st.mdvs.getD mdvsNew).nextId := by
    cases h : st.mdvs with
    | none => simp [mdvsNew]
    | some vs => simpa using hwf vs h
  have hred : addNativeCodeVersion st ilv true true =
      addNativeCodeVersionLinked (st.mdvs.getD mdvsNew) ilv true := by
    simp [addNativeCodeVersion, getOrCreate_alloc]
  rw [hred]
  exact addLinked_first_active _ ilv hwfB hcond hfilterB

/-- Witness for C6: adding to a method with no versioning state, for an
explicit IL version with rejit id 2. -/
theorem c6_first_native_version_immediately_active_witness :
    nativeCodeVersionList ⟨none⟩ (.explicitFilter 2) = [] ∧
    (addNativeCodeVersion ⟨none⟩ (.explicitFilter 2) true true).1 = .sOk ∧
    (addNativeCodeVersion ⟨none⟩ (.explicitFilter 2) true true).2.2 =
      some (.nodeRef ((⟨none⟩ : MethodState).mdvs.getD mdvsNew).nextId) ∧
    isActiveChildVersion (addNativeCodeVersion ⟨none⟩ (.explicitFilter 2) true true).2.1
      (.nodeRef ((⟨none⟩ : MethodState).mdvs.getD mdvsNew).nextId) = true ∧
    getActiveNativeCodeVersion
      (addNativeCodeVersion ⟨none⟩ (.explicitFilter 2) true true).2.1 (.explicitFilter 2) =
      some (.nodeRef ((⟨none⟩ : MethodState).mdvs.getD mdvsNew).nextId) :=
  ⟨rfl, c6_first_native_version_immediately_active ⟨none⟩ (.explicitFilter 2)
    (fun vs h => by cases h) rfl⟩

/-- Helper: retagging the freshly linked node OptimizationTier1 updates
exactly it. -/
lemma setOptTier_mdvsLinked (vsB : MethodDescVersioningState) (f : ILVerFilter)
    (b : Bool) (hfresh : ∀ n ∈ vsB.nodes, n.id ≠ vsB.nextId) :
    setOptimizationTierById ⟨some (mdvsLinked vsB f b)⟩ vsB.nextId .tier1 =
      ⟨some (mdvsPromoted vsB f b)⟩ := by
  simp only [setOptimizationTierById, mdvsLinked, mdvsPromoted]
  rw [List.map_cons, updateById_skips vsB.nodes vsB.nextId _ hfresh]
  simp [newNCVNode, tier1NCVNode]

/-- Helper: the iterator sequence of a method state, written through the
state's (existing or fresh) versioning state. -/
lemma nativeCodeVersionList_getD (st : MethodState) (f : ILVerFilter) :
    nativeCodeVersionList st f =
      (if f.isNull || f.isDefault then [NativeCodeVersionRef.syntheticRef] else []) ++
        ((st.mdvs.getD mdvsNew).nodes.filter (nodeMatches f)).map
          (fun n => .nodeRef n.id) := by
  cases h : st.mdvs <;> simp [nativeCodeVersionList, h, mdvsNew]

/-- Helper: the iterator sequence right after a tier-1 promotion linked its
node: the implicit stage is unchanged and the new node heads the matching
linked-list stage. -/
lemma nativeCodeVersionList_promoted (vsB : MethodDescVersioningState)
    (f : ILVerFilter) (b : Bool) :
    nativeCodeVersionList ⟨some (mdvsPromoted vsB f b)⟩ f =
      (if f.isNull || f.isDefault then [NativeCodeVersionRef.syntheticRef] else []) ++
        (.nodeRef vsB.nextId ::
          (vsB.nodes.filter (nodeMatches f)).map (fun n => .nodeRef n.id)) := by
  simp [nativeCodeVersionList, mdvsPromoted, List.filter_cons, nodeMatches, tier1NCVNode]

/-- Helper: the promoted node reads OptimizationTier1. -/
lemma getOpt_promoted_new (vsB : MethodDescVersioningState) (f : ILVerFilter)
    (b : Bool) :
    getOptimizationTier ⟨some (mdvsPromoted vsB f b)⟩ (.nodeRef vsB.nextId) = .tier1 := by
  simp [getOptimizationTier, findNode, mdvsPromoted, tier1NCVNode]

/-- Helper: nodes other than the promoted one read the same tier as before
the promotion. -/
lemma getOpt_promoted_other (st : MethodState) (f : ILVerFilter) (b : Bool)
    (j : Nat) (hj : ((st.mdvs.getD mdvsNew).nextId == j) = false) :
    getOptimizationTier ⟨some (mdvsPromoted (st.mdvs.getD mdvsNew) f b)⟩ (.nodeRef j) =
      getOptimizationTier st (.nodeRef j) := by
  cases h : st.mdvs with
  | none =>
    rw [h] at hj
    simp [mdvsNew] at hj
    simp [getOptimizationTier, findNode, mdvsPromoted, tier1NCVNode, mdvsNew, h, hj]
  | some vs =>
    rw [h] at hj
    simp only [Option.getD_some] at hj
    simp [getOptimizationTier, findNode, mdvsPromoted, tier1NCVNode, h, List.find?_cons, hj]

/-- Helper: the active IL version view is unchanged by updates to the method
state or queue. -/
lemma tieredActiveFilter_update (st : TieredState) (m : MethodState)
    (q : List NativeCodeVersionRef) :
    tieredActiveFilter { st with method := m, queue := q } = tieredActiveFilter st := rfl

/-- Helper: full behavior of AsyncPromoteMethodToTier1 when no tier-1 version
exists yet for the active IL version: a fresh node is linked and retagged
tier 1, and its handle is appended to the optimization queue. -/
lemma asyncPromote_run (st : TieredState)
    (hwfB : ∀ n ∈ (st.method.mdvs.getD mdvsNew).nodes,
      n.id < (st.method.mdvs.getD mdvsNew).nextId)
    (hany : (nativeCodeVersionList st.method (tieredActiveFilter st)).any
      (fun v => getOptimizationTier st.method v == OptimizationTier.tier1) = false) :
    ∃ b, asyncPromoteMethodToTier1 st true true true =
      { st with
          method := ⟨some (mdvsPromoted (st.method.mdvs.getD mdvsNew)
            (tieredActiveFilter st) b)⟩
          queue := st.queue ++ [.nodeRef (st.method.mdvs.getD mdvsNew).nextId] } := by
  have hfresh : ∀ n ∈ (st.method.mdvs.getD mdvsNew).nodes,
      n.id ≠ (st.method.mdvs.getD mdvsNew).nextId := fun n hn => Nat.ne_of_lt (hwfB n hn)
  have hred : addNativeCodeVersion st.method (tieredActiveFilter st) true true =
      addNativeCodeVersionLinked (st.method.mdvs.getD mdvsNew) (tieredActiveFilter st) true := by
    simp [addNativeCodeVersion, getOrCreate_alloc]
  refine ⟨(getActiveNativeCodeVersion ⟨some (mdvsLinked (st.method.mdvs.getD mdvsNew)
    (tieredActiveFilter st) false)⟩ (tieredActiveFilter st)).isNone, ?_⟩
  simp only [asyncPromoteMethodToTier1, hany, hred,
    addNativeCodeVersionLinked_run _ _ hwfB, setOptTier_mdvsLinked _ _ _ hfresh]
  simp [HR.failed]

/-- C8: calling AsyncPromoteMethodToTier1 twice in a row for the same method
before the first tier-1 compilation completes creates and queues exactly
one tier-1 native code version: the first call links one tier-1 version
bound to the active IL version and appends exactly one entry to the
optimization queue, and the second call finds that tier-1 version during
its scan and returns without adding or enqueuing anything. -/
theorem c8_async_promote_tier1_idempotent (st : TieredState)
    (hwf : MethodStateWf st.method)
    (hscan : ∀ v ∈ nativeCodeVersionList st.method (tieredActiveFilter st),
      getOptimizationTier st.method v ≠ OptimizationTier.tier1) :
    asyncPromoteMethodToTier1 (asyncPromoteMethodToTier1 st true true true) true true true =
      asyncPromoteMethodToTier1 st true true true ∧
    (asyncPromoteMethodToTier1 st true true true).queue =
      st.queue ++ [.nodeRef (st.method.mdvs.getD mdvsNew).nextId] ∧
    ((nativeCodeVersionList (asyncPromoteMethodToTier1 st true true true).method
        (tieredActiveFilter (asyncPromoteMethodToTier1 st true true true))).filter
      (fun v => getOptimizationTier (asyncPromoteMethodToTier1 st true true true).method v ==
        OptimizationTier.tier1)).length = 1 := by
  have hwfB : ∀ n ∈ (st.method.mdvs.getD mdvsNew).nodes,
      n.id < (st.method.mdvs.getD mdvsNew).nextId := by
    cases h : st.method.mdvs with
    | none => simp [mdvsNew]
    | some vs => simpa using hwf vs h
  have hany : (nativeCodeVersionList st.method (tieredActiveFilter st)).any
      (fun v => getOptimizationTier st.method v == OptimizationTier.tier1) = false := by
    rw [List.any_eq_false]
    intro v hv
    simpa using hscan v hv
  obtain ⟨b, h1⟩ := asyncPromote_run st hwfB hany
  rw [h1]
  have hmem : NativeCodeVersionRef.nodeRef (st.method.mdvs.getD mdvsNew).nextId ∈
      nativeCodeVersionList ⟨some (mdvsPromoted (st.method.mdvs.getD mdvsNew)
        (tieredActiveFilter st) b)⟩ (tieredActiveFilter st) := by
    rw [nativeCodeVersionList_promoted]
    exact List.mem_append_right _ (List.mem_cons_self _ _)
  have hany2 : (nativeCodeVersionList ⟨some (mdvsPromoted (st.method.mdvs.getD mdvsNew)
      (tieredActiveFilter st) b)⟩ (tieredActiveFilter st)).any
      (fun v => getOptimizationTier ⟨some (mdvsPromoted (st.method.mdvs.getD mdvsNew)
        (tieredActiveFilter st) b)⟩ v == OptimizationTier.tier1) = true := by
    rw [List.any_eq_true]
    exact ⟨_, hmem, by simp [getOpt_promoted_new]⟩
  refine ⟨?_, rfl, ?_⟩
  · simp [asyncPromoteMethodToTier1, tieredActiveFilter_update, hany2]
  · simp only [tieredActiveFilter_update]
    rw [nativeCodeVersionList_promoted, List.filter_append, List.filter_cons]
    have himpl : ((if (tieredActiveFilter st).isNull || (tieredActiveFilter st).isDefault
        then [NativeCodeVersionRef.syntheticRef] else []).filter
        (fun v => getOptimizationTier ⟨some (mdvsPromoted (st.method.mdvs.getD mdvsNew)
          (tieredActiveFilter st) b)⟩ v == OptimizationTier.tier1)) = [] := by
      cases hc : ((tieredActiveFilter st).isNull || (tieredActiveFilter st).isDefault) <;>
        simp [hc, getOptimizationTier]
    have hpnew : (getOptimizationTier ⟨some (mdvsPromoted (st.method.mdvs.getD mdvsNew)
        (tieredActiveFilter st) b)⟩
        (.nodeRef (st.method.mdvs.getD mdvsNew).nextId) == OptimizationTier.tier1) = true := by
      rw [getOpt_promoted_new]
      rfl
    have holdrefs : ((((st.method.mdvs.getD mdvsNew).nodes.filter
        (nodeMatches (tieredActiveFilter st))).map
          (fun n => NativeCodeVersionRef.nodeRef n.id)).filter
        (fun v => getOptimizationTier ⟨some (mdvsPromoted (st.method.mdvs.getD mdvsNew)
          (tieredActiveFilter st) b)⟩ v == OptimizationTier.tier1)) = [] := by
      rw [List.filter_eq_nil_iff]
      intro v hv
      rw [List.mem_map] at hv
      obtain ⟨n, hn, rfl⟩ := hv
      have hnid : n.id < (st.method.mdvs.getD mdvsNew).nextId :=
        hwfB n (List.mem_of_mem_filter hn)
      have hbeq : ((st.method.mdvs.getD mdvsNew).nextId == n.id) = false := by
        simp [Nat.ne_of_gt hnid]
      rw [getOpt_promoted_other st.method (tieredActiveFilter st) b n.id hbeq]
      have hmem2 : NativeCodeVersionRef.nodeRef n.id ∈
          nativeCodeVersionList st.method (tieredActiveFilter st) := by
        rw [nativeCodeVersionList_getD]
        exact List.mem_append_right _ (List.mem_map_of_mem _ hn)
      simpa using hscan _ hmem2
    rw [himpl, hpnew, holdrefs]
    simp

/-- Witness for C8: two promotions of a fresh method (no versioning state, no
explicit IL versions, empty queue). -/
theorem c8_async_promote_tier1_idempotent_witness :
    (∀ v ∈ nativeCodeVersionList (⟨3, 4, ⟨none⟩, none, []⟩ : TieredState).method
        (tieredActiveFilter ⟨3, 4, ⟨none⟩, none, []⟩),
      getOptimizationTier (⟨3, 4, ⟨none⟩, none, []⟩ : TieredState).method v ≠
        OptimizationTier.tier1) ∧
    (asyncPromoteMethodToTier1
        (asyncPromoteMethodToTier1 ⟨3, 4, ⟨none⟩, none, []⟩ true true true) true true true =
      asyncPromoteMethodToTier1 ⟨3, 4, ⟨none⟩, none, []⟩ true true true ∧
    (asyncPromoteMethodToTier1 ⟨3, 4, ⟨none⟩, none, []⟩ true true true).queue =
      (⟨3, 4, ⟨none⟩, none, []⟩ : TieredState).queue ++
        [.nodeRef ((⟨3, 4, ⟨none⟩, none, []⟩ : TieredState).method.mdvs.getD mdvsNew).nextId] ∧
    ((nativeCodeVersionList
        (asyncPromoteMethodToTier1 ⟨3, 4, ⟨none⟩, none, []⟩ true true true).method
        (tieredActiveFilter (asyncPromoteMethodToTier1 ⟨3, 4, ⟨none⟩, none, []⟩ true true true))).filter
      (fun v => getOptimizationTier
        (asyncPromoteMethodToTier1 ⟨3, 4, ⟨none⟩, none, []⟩ true true true).method v ==
          OptimizationTier.tier1)).length = 1) :=
  ⟨by decide, c8_async_promote_tier1_idempotent ⟨3, 4, ⟨none⟩, none, []⟩
    (fun vs h => nomatch h) (by decide)⟩
